import Mathlib

/-!
Shallow embedding of the geometric/aggregation core of the HackOHIO-2025
campus parking dashboard (src/api/server.js, src/web/src/components/*.tsx,
src/api/scripts/seed.js).  JavaScript numbers are modelled as rationals
(integers where the source only ever holds integer counts); JavaScript
`undefined`/`null` is modelled with `Option`; a JavaScript `TypeError`
thrown by accessing a property of `undefined` is modelled as `Option.none`
in functions returning `Option`.
-/

namespace Parking

/-- A counts record as produced by the API (server.js).  Fields are
integers; `«open»` mirrors the source field `open`. -/
structure Counts where
  total : Int
  occupied : Int
  «open» : Int
  unknown : Int
deriving DecidableEq, Repr

/-- The invariant claimed by the spec for every produced counts record. -/
def Counts.inv (c : Counts) : Prop :=
  c.total = c.occupied + c.«open» + c.unknown ∧
  0 ≤ c.total ∧ 0 ≤ c.occupied ∧ 0 ≤ c.«open» ∧ 0 ≤ c.unknown

instance (c : Counts) : Decidable c.inv := by
  unfold Counts.inv; infer_instance

/-- A manual stall record as stored by the API (`stalls.json`); only the
fields the server consults are kept (`status`, and the hand drawn
`polygon` which the write endpoint stores without inspecting it). -/
structure Stall where
  id : String
  polygon : List (ℚ × ℚ)
  status : String
deriving DecidableEq, Repr

/-- server.js `summarizeStalls`: `total` is the list length, `occupied`
counts status `"occupied"`, `unknown` counts every status that is neither
`"occupied"` nor `"open"`, and `open` is the remainder. -/
def summarizeStalls (stalls : List Stall) : Counts :=
  let total : Int := stalls.length
  let occ : Int := (stalls.filter (fun s => s.status = "occupied")).length
  let unk : Int :=
    (stalls.filter (fun s => s.status ≠ "occupied" ∧ s.status ≠ "open")).length
  { total := total, occupied := occ, «open» := total - occ - unk, unknown := unk }

/-- The lot metadata fields consulted by `summarizeLot` (server.js);
absent JSON fields are `none`. -/
structure LotMeta where
  osmId : Option String
  spaceCount : Option Int
  occupiedCount : Option Int
deriving DecidableEq, Repr

/-- A stored lot record (`lots.json`), restricted to the fields that feed
the counts resolution. -/
structure LotRec where
  id : String
  name : String
  metadata : LotMeta
deriving DecidableEq, Repr

/-- A capacity-history entry (`capacity.json`); the source also stores an
`observed_at` wall-clock string, which is omitted here because no claim
mentions it. -/
structure CapEntry where
  capacity : Int
  occupied : Int
  source : String
deriving DecidableEq, Repr

/-- The mutable stores `stallsByLot` and `capacity` read by the resolver. -/
structure Env where
  stallsByLot : String → List Stall
  capacity : String → List CapEntry

/-- server.js `PROTECTED_OSM_IDS`: lots that must always use locally
seeded/derived data. -/
def PROTECTED_OSM_IDS : List String :=
  ["way/38911611", "way/444966505", "way/39115920", "way/275147287"]

/-- server.js `summarizeLot`: `osmId && PROTECTED_OSM_IDS.has(osmId)`. -/
def isProtected (l : LotRec) : Bool :=
  match l.metadata.osmId with
  | some id => PROTECTED_OSM_IDS.contains id
  | none => false

/-- The counts branch of server.js `computeSeedCounts` (closure inside
`summarizeLot`): manual stall summary first; if it is empty and the seed
metadata carries a truthy (present, nonzero) `spaceCount`, fall back to
the seeded `spaceCount`/`occupiedCount` figures. -/
def seedFallbackCounts (localCounts : Counts) (spaceCount : Option Int)
    (occupiedCount : Int) : Counts :=
  match spaceCount with
  | some sc =>
      if localCounts.total = 0 ∧ sc ≠ 0 then
        let opn := max (sc - occupiedCount) 0
        { total := sc, occupied := occupiedCount, «open» := opn,
          unknown := max (sc - opn - occupiedCount) 0 }
      else localCounts
  | none => localCounts

/-- server.js `computeSeedCounts`: the counts above together with the
latest capacity entry (last element of the capacity history, or a
seed-tagged default built from the metadata after its
`?? localCounts` backfill). -/
def computeSeedCounts (env : Env) (l : LotRec) : Counts × CapEntry :=
  let counts := seedFallbackCounts (summarizeStalls (env.stallsByLot l.id))
    l.metadata.spaceCount (l.metadata.occupiedCount.getD 0)
  let sc' := l.metadata.spaceCount.getD counts.total
  let oc' := l.metadata.occupiedCount.getD counts.occupied
  let capEntry := ((env.capacity l.id).getLast?).getD
    { capacity := sc', occupied := oc', source := "seed" }
  (counts, capEntry)

/-- The per-lot statistics built by server.js `fetchSupabaseData`: either
derived from `parking_spot` rows or, when no spot rows exist for the lot,
from the `capacity`/`occupancy` columns of the lot row. -/
structure SupaStats where
  total : Int
  occupied : Int
deriving DecidableEq, Repr

/-- server.js `fetchSupabaseData`: `spotStatsByLotName.get(name) ||
\x7b total: Number(row.capacity) || 0, occupied: Number(row.occupancy) || 0 \x7d`.
`Number(null)` and `Number(undefined) || 0` both yield `0`, so an absent
column becomes `0`. -/
def statsForRow (spotStats : Option SupaStats) (capacity occupancy : Option Int) :
    SupaStats :=
  spotStats.getD { total := capacity.getD 0, occupied := occupancy.getD 0 }

/-- A cached external-source entry; `fetchSupabaseData` always populates
`stats` (the row/permit/spot fields are irrelevant to the counts claims
and omitted). -/
structure SupaEntry where
  stats : SupaStats
deriving DecidableEq, Repr

/-- The counts built on the external-source branch of `summarizeLot` and
in `createSupabaseOnlyLot`: capacity is the reported total, occupied is
`Math.min(reported, capacity)` (no lower clamp), `open` is
`Math.max(capacity - occupied, 0)`, `unknown` is `0`. -/
def supaCounts (st : SupaStats) : Counts :=
  let capacityVal := st.total
  let occupiedVal := min st.occupied capacityVal
  { total := capacityVal, occupied := occupiedVal,
    «open» := max (capacityVal - occupiedVal) 0, unknown := 0 }

/-- The capacity snapshot written on the external-source branch. -/
def supaCapEntry (st : SupaStats) : CapEntry :=
  { capacity := st.total, occupied := min st.occupied st.total,
    source := "supabase" }

/-- The counts/capacity part of server.js `summarizeLot`: the external
entry wins unless the lot is on the protected allow-list, in which case
(and when there is no entry) the seed path is used.  The entry lookup
(`byLocation`/`byName`) happens at the call site and is abstracted into
the `supaEntry` argument. -/
def summarizeLotCounts (env : Env) (l : LotRec) (supaEntry : Option SupaEntry) :
    Counts × CapEntry :=
  match supaEntry with
  | some e =>
      if isProtected l then computeSeedCounts env l
      else (supaCounts e.stats, supaCapEntry e.stats)
  | none => computeSeedCounts env l

/-- The counts part of server.js `createSupabaseOnlyLot` (same formulas
as the external branch of `summarizeLot`). -/
def createSupabaseOnlyLotCounts (st : SupaStats) : Counts × CapEntry :=
  let capacityVal := st.total
  let occupiedVal := min st.occupied capacityVal
  ({ total := capacityVal, occupied := occupiedVal,
     «open» := max (capacityVal - occupiedVal) 0, unknown := 0 },
   { capacity := capacityVal, occupied := occupiedVal, source := "supabase" })

/-- A GeoJSON position, `(lon, lat)` in the source order. -/
abbrev Pt := ℚ × ℚ

/-- GeoJSON-like geometry as consumed by the map components.  `other`
stands for any unrecognized geometry kind (LineString and so on), which
every kernel function sends to its default branch. -/
inductive Geometry where
  | point (c : Pt)
  | polygon (rings : List (List Pt))
  | multiPolygon (polys : List (List (List Pt)))
  | other
deriving DecidableEq, Repr

/-- One step of the ray-casting loop in `pointInRing`
(MapView.tsx / LotDetailMap.tsx / seed.js): does the edge from `vj`
(previous vertex) to `vi` (current vertex) cross the rightward ray from
`p` under the even-odd rule?  The division cannot divide by zero because
the first conjunct forces the two y-coordinates to differ. -/
def edgeCrossesRay (p vi vj : Pt) : Bool :=
  (decide (vi.2 > p.2) != decide (vj.2 > p.2)) &&
    decide (p.1 < (vj.1 - vi.1) * (p.2 - vi.2) / (vj.2 - vi.2) + vi.1)

/-- `pointInRing(point, ring)`: even-odd ray casting.  The JS loop pairs
each vertex `i` with its cyclic predecessor `j`; `ring.rotate (n - 1)`
rotates the list right by one so that `zip` produces exactly those
`(current, previous)` pairs. -/
def pointInRing (p : Pt) (ring : List Pt) : Bool :=
  ((ring.zip (ring.rotate (ring.length - 1))).foldl
    (fun inside vv => if edgeCrossesRay p vv.1 vv.2 then !inside else inside)
    false)

/-- The MultiPolygon loop of `geometryContainsPoint`: JS
`coordinates.some(poly => pointInRing(point, poly[0]))` short-circuits,
and throws (modelled as `none`) when it reaches a member polygon with no
rings before finding a containing one. -/
def multiContains (p : Pt) : List (List (List Pt)) → Option Bool
  | [] => some false
  | poly :: rest =>
      match poly.head? with
      | none => none
      | some ring =>
          if pointInRing p ring then some true else multiContains p rest

/-- `geometryContainsPoint(geometry, point)` on a present geometry: a
Polygon consults only its first ring — JS `geometry.coordinates[0]` is
`undefined` when there are no rings, and `pointInRing` then throws
(`none`); a MultiPolygon succeeds if any member first ring contains the
point; every other kind is `false`. -/
def geometryContainsPointCore : Geometry → Pt → Option Bool
  | Geometry.point _, _ => some false
  | Geometry.polygon rings, p =>
      match rings.head? with
      | none => none
      | some ring => some (pointInRing p ring)
  | Geometry.multiPolygon polys, p => multiContains p polys
  | Geometry.other, _ => some false

/-- `geometryContainsPoint` including the leading `if (!geometry) return
false` null guard. -/
def geometryContainsPoint : Option Geometry → Pt → Option Bool
  | none, _ => some false
  | some g, p => geometryContainsPointCore g p

/-- Geometries on which `geometryContainsPointCore` cannot throw: a
Polygon must have at least one ring and every MultiPolygon member must
have at least one ring. -/
def wfGeom : Geometry → Bool
  | Geometry.point _ => true
  | Geometry.polygon rings => !rings.isEmpty
  | Geometry.multiPolygon polys => polys.all (fun poly => !poly.isEmpty)
  | Geometry.other => true

/-- The inner `average` helper of server.js `centroidForGeometry`: null-checked, so
an absent or empty ring yields `null` and never throws; a non-empty ring
(of any length, including one or two vertices) yields the unweighted
mean, returned in `[lat, lng]` display order. -/
def averageRing : Option (List Pt) → Option (ℚ × ℚ)
  | none => none
  | some [] => none
  | some coords =>
      let latSum := (coords.map (fun c => c.2)).sum
      let lngSum := (coords.map (fun c => c.1)).sum
      let count : ℚ := coords.length
      some (latSum / count, lngSum / count)

/-- server.js `centroidForGeometry`: a Point is echoed back in
`[lat, lng]` order; a Polygon averages its first ring; a MultiPolygon
takes the first member whose first ring averages to a value; anything
else (including an absent geometry) is `null`. -/
def centroidForGeometry : Option Geometry → Option (ℚ × ℚ)
  | none => none
  | some (Geometry.point c) => some (c.2, c.1)
  | some (Geometry.polygon rings) => averageRing rings.head?
  | some (Geometry.multiPolygon polys) =>
      polys.findSome? (fun poly => averageRing poly.head?)
  | some Geometry.other => none

/-- An element of MapView.tsx `spacesWithCenter`: a space feature whose
centroid computation succeeded (features with no centroid were filtered
out there), with its optional OSM identifier. -/
structure SpaceC where
  id : Option String
  center : Pt
deriving DecidableEq, Repr

/-- A lot feature as iterated by MapView.tsx `occupancyByLot`
(`lotFeaturesForCounts`); the loop skips entries with a missing id or
missing geometry. -/
structure LotFeat where
  osmId : Option String
  geom : Option Geometry
deriving DecidableEq, Repr

/-- The inner lot loop of `occupancyByLot`: iterate the lots in order,
skip those without id or geometry (`continue`), stop at the first lot
whose geometry contains the centre (`break`).  Outer `none` models a
thrown TypeError from the containment test. -/
def assignLot : List LotFeat → Pt → Option (Option String)
  | [], _ => some none
  | lot :: rest, c =>
      match lot.osmId, lot.geom with
      | some id, some g =>
          match geometryContainsPointCore g c with
          | none => none
          | some true => some (some id)
          | some false => assignLot rest c
      | some _, none => assignLot rest c
      | none, _ => assignLot rest c

/-- JS `if (spaceId && occupiedSet.has(spaceId))`. -/
def matchesOcc (occupied : String → Bool) (sp : SpaceC) : Bool :=
  match sp.id with
  | some i => occupied i
  | none => false

/-- One iteration of the outer space loop of `occupancyByLot`: the
assigned lot (if any) gets `total + 1`, and `occupied + 1` when the
space id is in the occupied set. -/
def occStep (occupied : String → Bool) (lots : List LotFeat)
    (m : String → Nat × Nat) (sp : SpaceC) : Option (String → Nat × Nat) :=
  match assignLot lots sp.center with
  | none => none
  | some none => some m
  | some (some osmId) =>
      let st := m osmId
      let st' := (st.1 + 1, if matchesOcc occupied sp then st.2 + 1 else st.2)
      some (fun k => if k = osmId then st' else m k)

/-- MapView.tsx `occupancyByLot` restricted to the per-lot `total` and
`occupied` tallies (the final map additionally derives
`open = max(total - occupied, 0)` and `unknown = 0` per entry).  The
statistics map is modelled as a total function that is zero outside the
touched keys. -/
def occupancyByLot (occupied : String → Bool) (spaces : List SpaceC)
    (lots : List LotFeat) : Option (String → Nat × Nat) :=
  spaces.foldlM (occStep occupied lots) (fun _ => (0, 0))

/-- A lot feature is well formed when its geometry (if present) cannot
make the containment test throw. -/
def wfLot (lot : LotFeat) : Bool :=
  match lot.geom with
  | some g => wfGeom g
  | none => true

/-- seed.js `generateLotsFromOSM` space counting for ONE lot feature:
`spaces.filter((space) => geometryContainsPoint(feature.geometry,
space.point)).length` — every space contained in the geometry is
counted, with no first-match break across lots. -/
def countContained (spaces : List SpaceC) (g : Geometry) : Option Nat :=
  match spaces with
  | [] => some 0
  | sp :: rest =>
      match geometryContainsPointCore g sp.center with
      | none => none
      | some true => (countContained rest g).map (· + 1)
      | some false => countContained rest g

/-- The per-lot `spaceCount` figures of seed.js `generateLotsFromOSM`,
one entry per lot geometry, each computed independently by filtering the
full space list (the loop body never consults the other lots). -/
def seedLotSpaceCounts (spaces : List SpaceC) : List Geometry → Option (List Nat)
  | [] => some []
  | g :: gs =>
      match countContained spaces g with
      | none => none
      | some n => (seedLotSpaceCounts spaces gs).map (n :: ·)

/-- A historical snapshot row (`snapshots.json`): weekday 0..6, a
`HH:MM` slot string, and the observed open count.  The source also keeps
`occupied` and `detected_at`, which the forecast route never reads. -/
structure Snapshot where
  weekday : Int
  slot : String
  «open» : Int
deriving DecidableEq, Repr

/-- JS `Math.round`: round half toward positive infinity. -/
def jsRound (x : ℚ) : Int := ⌊x + 1 / 2⌋

/-- server.js `quantile(arr, q)`: sort a copy ascending, take the linear
interpolation between the two ranks straddling `(length - 1) * q` (or
the lower rank alone at the top end).  Only ever called on a non-empty
array. -/
def quantile (arr : List ℚ) (q : ℚ) : ℚ :=
  let a := arr.mergeSort (fun x y => decide (x ≤ y))
  let pos := ((a.length : ℚ) - 1) * q
  let base := ⌊pos⌋
  let rest := pos - base
  match a.get? (base.toNat + 1) with
  | some v => a.getD base.toNat 0 + rest * (v - a.getD base.toNat 0)
  | none => a.getD base.toNat 0

/-- The history filter of the forecast route: exact `(weekday, slot)`
match. -/
def forecastFilter (history : List Snapshot) (weekday : Int) (slot : String) :
    List Snapshot :=
  history.filter (fun s => s.weekday = weekday ∧ s.slot = slot)

/-- The forecast route (`GET /api/lots/:id/forecast`): filter the lot
history to the exact `(weekday, slot)` pair, then
`open_expected = Math.round(0.6 * (lastWeek ?? median ?? 0) +
0.4 * (median ?? lastWeek ?? 0))` (null when both inputs are null) and
the interpolated 25th/75th percentiles (null on an empty filter).
Returns `(open_expected, open_p25, open_p75)`. -/
def forecast (history : List Snapshot) (weekday : Int) (slot : String) :
    Option Int × Option ℚ × Option ℚ :=
  let hist := forecastFilter history weekday slot
  let values : List ℚ := hist.map (fun s => (s.«open» : ℚ))
  let median : Option ℚ :=
    if values.length ≠ 0 then some (quantile values (1 / 2)) else none
  let lastWeek : Option ℚ := (hist.getLast?).map (fun s => (s.«open» : ℚ))
  let expected : Option Int :=
    match median, lastWeek with
    | none, none => none
    | _, _ =>
        some (jsRound ((3 / 5) * ((lastWeek.orElse (fun _ => median)).getD 0) +
          (2 / 5) * ((median.orElse (fun _ => lastWeek)).getD 0)))
  let p25 : Option ℚ :=
    if values.length ≠ 0 then some (quantile values (1 / 4)) else none
  let p75 : Option ℚ :=
    if values.length ≠ 0 then some (quantile values (3 / 4)) else none
  (expected, p25, p75)

/-- The JSON body of the stall write endpoint: `none` models any
non-array body (which `Array.isArray` sends to `[]`). -/
def coerceStallBody (body : Option (List Stall)) : List Stall :=
  body.getD []

/-- The response of `POST /api/lots/:id/stalls`: always `ok` with the
stored item count; the handler has no error branch. -/
structure PostStallsResp where
  ok : Bool
  count : Nat
deriving DecidableEq, Repr

/-- server.js `POST /api/lots/:id/stalls`: coerce the body, overwrite the
stall set of that lot wholesale, respond ok — no validation of geometry
or anything else. -/
def postStalls (body : Option (List Stall)) (store : String → List Stall)
    (lotId : String) : (String → List Stall) × PostStallsResp :=
  let items := coerceStallBody body
  (fun k => if k = lotId then items else store k,
   { ok := true, count := items.length })

/-- The process wide cache of server.js `fetchSupabaseData`, abstracted
to its timestamp and lot list (the by-location and by-name maps are
derived from the list). -/
structure SupaCache where
  fetchedAt : Int
  list : List SupaEntry
deriving DecidableEq, Repr

/-- server.js `SUPABASE_CACHE_MS`. -/
def SUPABASE_CACHE_MS : Int := 60000

/-- One call of server.js `fetchSupabaseData` in the configured case:
serve the cache when its list is non-empty and younger than
`SUPABASE_CACHE_MS`; otherwise perform the fetch — `some rows` is a
successful response (cached and returned), `none` a thrown fetch error
(the catch block returns the previous cache object unchanged).  Returns
`(returned snapshot, new cache state)`. -/
def fetchSupabaseData (now : Int) (fetchResult : Option (List SupaEntry))
    (cache : SupaCache) : SupaCache × SupaCache :=
  if cache.list ≠ [] ∧ now - cache.fetchedAt < SUPABASE_CACHE_MS then
    (cache, cache)
  else
    match fetchResult with
    | some rows =>
        let fresh : SupaCache := { fetchedAt := now, list := rows }
        (fresh, fresh)
    | none => (cache, cache)

/-- A user/lot coordinate in display order. -/
structure Coord where
  lat : ℚ
  lng : ℚ
deriving DecidableEq, Repr

/-- A lot summary as ranked by the `near` handling of
`GET /api/lots`, restricted to the consulted fields. -/
structure LotS where
  id : String
  centroid : Option Coord
deriving DecidableEq, Repr

/-- The `?? 1e12` sentinel applied to a possibly-null
`distanceMeters`. -/
def sortKeyQ (d : Option ℚ) : ℚ := d.getD (10 ^ 12)

/-- The `near`/`radius` handling of `GET /api/lots`: annotate every lot
with its distance from the origin (null when the lot has no centroid),
stable-sort ascending on the `?? 1e12` keys, and only then, when a
radius is given, filter on the same keys.  The transcendental haversine
is a parameter `d`; `distanceMetersR` below is the concrete function and
satisfies the bound the ranking theorems assume. -/
def listNear (d : Coord → Coord → ℚ) (origin : Coord) (radius : Option ℚ)
    (lots : List LotS) : List (LotS × Option ℚ) :=
  let annotated := lots.map (fun l => (l, l.centroid.map (fun c => d origin c)))
  let sorted := annotated.mergeSort
    (fun a b => decide (sortKeyQ a.2 ≤ sortKeyQ b.2))
  match radius with
  | some r => sorted.filter (fun a => decide (sortKeyQ a.2 ≤ r))
  | none => sorted

/-- server.js `toRad`. -/
noncomputable def toRadR (d : ℚ) : ℝ := (d : ℝ) * Real.pi / 180

/-- server.js `distanceMeters`: the haversine formula with Earth radius
6371000 meters (the null guard on the arguments is handled at the call
site, which only computes a distance when the centroid exists). -/
noncomputable def distanceMetersR (a b : Coord) : ℝ :=
  let dLat := toRadR (b.lat - a.lat)
  let dLon := toRadR (b.lng - a.lng)
  let la1 := toRadR a.lat
  let la2 := toRadR b.lat
  let h := Real.sin (dLat / 2) ^ 2 +
    Real.cos la1 * Real.cos la2 * Real.sin (dLon / 2) ^ 2
  2 * 6371000 * Real.arcsin (min 1 (Real.sqrt h))

/-! Concrete inputs used by counterexamples and witnesses. -/

/-- Empty stall and capacity stores. -/
def env0 : Env := ⟨fun _ => [], fun _ => []⟩

/-- A lot that is not on the protected allow-list. -/
def lotPlain : LotRec :=
  { id := "lot-plain", name := "Plain Lot",
    metadata := { osmId := some "way/123", spaceCount := some 3,
                  occupiedCount := some 1 } }

/-- A lot whose `osmId` is on `PROTECTED_OSM_IDS`. -/
def lotProtected : LotRec :=
  { id := "lot-prot", name := "Saint Johns Arena Parking",
    metadata := { osmId := some "way/38911611", spaceCount := some 3,
                  occupiedCount := some 1 } }

/-- An external entry whose row reported capacity 50 and occupancy 10
with no spot rows. -/
def entry5010 : SupaEntry := ⟨statsForRow none (some 50) (some 10)⟩

/-- An external entry reporting occupancy -5 for capacity 50. -/
def entryNeg : SupaEntry := ⟨⟨50, -5⟩⟩

/-- A lot whose seed metadata carries `occupiedCount` larger than
`spaceCount` (storable verbatim through `POST /api/lots`). -/
def lotBadSeed : LotRec :=
  { id := "lot-bad", name := "Bad Seed Lot",
    metadata := { osmId := none, spaceCount := some 5,
                  occupiedCount := some 10 } }

/-- A manual stall whose polygon is a degenerate single point. -/
def badStall : Stall := { id := "S-001", polygon := [(0, 0)], status := "open" }

/-- A square lot boundary ring. -/
def sqGeom : Geometry := Geometry.polygon [[(0, 0), (4, 0), (4, 4), (0, 4)]]

/-- A space whose centroid (2, 2) lies inside `sqGeom`. -/
def spMid : SpaceC := ⟨some "way/875331908", (2, 2)⟩

/-- A second space outside `sqGeom`. -/
def spOut : SpaceC := ⟨some "way/875331909", (9, 9)⟩

/-- Two lot features sharing the same square geometry (overlapping
lots). -/
def lotFeatA : LotFeat := ⟨some "A", some sqGeom⟩

def lotFeatB : LotFeat := ⟨some "B", some sqGeom⟩

end Parking

namespace Parking

/-! Supporting lemmas. -/

theorem multiContains_isSome (p : Pt) (polys : List (List (List Pt)))
    (h : polys.all (fun poly => !poly.isEmpty) = true) :
    (multiContains p polys).isSome := by
  induction polys with
  | nil => simp [multiContains]
  | cons poly rest ih =>
      simp only [List.all_cons, Bool.and_eq_true] at h
      obtain ⟨h1, h2⟩ := h
      cases hp : poly.head? with
      | none =>
          cases poly with
          | nil => simp [List.isEmpty] at h1
          | cons a t => simp [List.head?] at hp
      | some ring =>
          simp only [multiContains, hp]
          split <;> simp [ih h2]

theorem containsCore_isSome (g : Geometry) (p : Pt) (h : wfGeom g = true) :
    (geometryContainsPointCore g p).isSome := by
  cases g with
  | point c => simp [geometryContainsPointCore]
  | polygon rings =>
      cases rings with
      | nil => simp [wfGeom, List.isEmpty] at h
      | cons r rs => simp [geometryContainsPointCore, List.head?]
  | multiPolygon polys => exact multiContains_isSome p polys h
  | other => simp [geometryContainsPointCore]

/-- C1.  A lot with a matching external structured-source entry that is
not on the protected allow-list gets that entry's counts: a row
reporting capacity 50 / occupancy 10 (and no spot rows) yields
`total 50, occupied 10, open 40, unknown 0` under the external source
tag (`"supabase"`); the same lot on the protected list instead gets the
locally seeded/derived counts, identical for every external entry (the
external occupancy numbers are ignored). -/
theorem summarizeLot_external_unless_protected
    (env : Env) (l : LotRec) (e : SupaEntry) :
    (isProtected l = false →
      summarizeLotCounts env l (some e) = (supaCounts e.stats, supaCapEntry e.stats) ∧
      (supaCapEntry e.stats).source = "supabase" ∧
      statsForRow none (some 50) (some 10) = ⟨50, 10⟩ ∧
      supaCounts ⟨50, 10⟩ =
        { total := 50, occupied := 10, «open» := 40, unknown := 0 }) ∧
    (isProtected l = true →
      summarizeLotCounts env l (some e) = computeSeedCounts env l) := by
  constructor
  · intro hp
    refine ⟨?_, rfl, by decide, by decide⟩
    simp [summarizeLotCounts, hp]
  · intro hp
    simp [summarizeLotCounts, hp]

/-- C1 witness: the concrete scenario of the spec, with the protected
branch exercised on a protected lot. -/
theorem summarizeLot_external_unless_protected_witness :
    summarizeLotCounts env0 lotPlain (some entry5010) =
      (supaCounts entry5010.stats, supaCapEntry entry5010.stats) ∧
    (supaCounts entry5010.stats).«open» = 40 ∧
    summarizeLotCounts env0 lotProtected (some entry5010) =
      computeSeedCounts env0 lotProtected := by
  refine ⟨((summarizeLot_external_unless_protected env0 lotPlain entry5010).1
    (by decide)).1, by decide,
    (summarizeLot_external_unless_protected env0 lotProtected entry5010).2
    (by decide)⟩

/-- C4 counterexample: the external branch does NOT clamp the reported
occupancy from below.  A reported occupancy of -5 for capacity 50 is
passed through as `occupied = -5 < 0`, refuting "clamped to
[0, capacity] (in particular it is never negative)". -/
theorem supabase_negative_occupancy_counterexample :
    (summarizeLotCounts env0 lotPlain (some entryNeg)).1.occupied = -5 ∧
    (summarizeLotCounts env0 lotPlain (some entryNeg)).1.occupied < 0 ∧
    (createSupabaseOnlyLotCounts entryNeg.stats).1.occupied = -5 := by
  refine ⟨by decide, by decide, by decide⟩

/-- C4 amended.  Counts resolved from the external structured source
satisfy `occupied = min(reported, capacity)` — never above capacity, but
with no lower clamp at 0 — together with
`open = max(capacity - occupied, 0)` and `unknown = 0`; the same
formulas hold in `createSupabaseOnlyLot`. -/
theorem supabase_counts_clamp_amended
    (env : Env) (l : LotRec) (e : SupaEntry) (st : SupaStats) :
    (isProtected l = false →
      (summarizeLotCounts env l (some e)).1.total = e.stats.total ∧
      (summarizeLotCounts env l (some e)).1.occupied =
        min e.stats.occupied e.stats.total ∧
      (summarizeLotCounts env l (some e)).1.occupied ≤ e.stats.total ∧
      (summarizeLotCounts env l (some e)).1.«open» =
        max (e.stats.total - min e.stats.occupied e.stats.total) 0 ∧
      (summarizeLotCounts env l (some e)).1.unknown = 0) ∧
    ((createSupabaseOnlyLotCounts st).1.occupied = min st.occupied st.total ∧
      (createSupabaseOnlyLotCounts st).1.occupied ≤ st.total ∧
      (createSupabaseOnlyLotCounts st).1.«open» =
        max (st.total - min st.occupied st.total) 0 ∧
      (createSupabaseOnlyLotCounts st).1.unknown = 0) := by
  constructor
  · intro hp
    have h : summarizeLotCounts env l (some e) =
        (supaCounts e.stats, supaCapEntry e.stats) := by
      simp [summarizeLotCounts, hp]
    rw [h]
    exact ⟨rfl, rfl, min_le_right _ _, rfl, rfl⟩
  · exact ⟨rfl, min_le_right _ _, rfl, rfl⟩

/-- C4 witness: the amended statement at the concrete negative-occupancy
entry. -/
theorem supabase_counts_clamp_amended_witness :
    (summarizeLotCounts env0 lotPlain (some entryNeg)).1.occupied =
      min entryNeg.stats.occupied entryNeg.stats.total ∧
    (createSupabaseOnlyLotCounts entryNeg.stats).1.unknown = 0 := by
  refine ⟨((supabase_counts_clamp_amended env0 lotPlain entryNeg
    entryNeg.stats).1 (by decide)).2.1,
    (supabase_counts_clamp_amended env0 lotPlain entryNeg
      entryNeg.stats).2.2.2.2⟩

/-- C5 (code bug).  `geometryContainsPoint` applied to a Polygon whose
`coordinates` array is empty reads `coordinates[0]` (which is
`undefined`) and then accesses `.length` of it inside `pointInRing`,
throwing a TypeError (modelled as `none`) instead of returning `false`
as the spec requires for degenerate geometry; the same happens for a
MultiPolygon having a ring-less member.  For contrast, the well formed
degenerate cases do return `false` as claimed. -/
theorem containsPoint_throws_on_ringless_polygon :
    geometryContainsPoint (some (Geometry.polygon [])) (0, 0) = none ∧
    geometryContainsPoint
      (some (Geometry.multiPolygon [[]])) (0, 0) = none ∧
    geometryContainsPoint (some (Geometry.polygon [[]])) (0, 0) = some false ∧
    geometryContainsPoint (some (Geometry.point (1, 1))) (0, 0) = some false ∧
    geometryContainsPoint (some Geometry.other) (0, 0) = some false ∧
    geometryContainsPoint none (0, 0) = some false := by
  refine ⟨rfl, rfl, rfl, rfl, rfl, rfl⟩

/-- C6 counterexample: a stall write whose single item has a degenerate
one-point polygon is accepted — the endpoint answers ok and the item is
stored verbatim — refuting "rejected at the write boundary with a
descriptive validation error". -/
theorem stalls_write_accepts_degenerate_counterexample :
    (postStalls (some [badStall]) (fun _ => []) "lot-1").2 =
      { ok := true, count := 1 } ∧
    (postStalls (some [badStall]) (fun _ => []) "lot-1").1 "lot-1" =
      [badStall] := by
  refine ⟨rfl, by decide⟩

/-- C6 amended.  The stall write endpoint performs no validation at all:
any array payload (degenerate or non-polygon geometry included) wholly
replaces the stored stall set for that lot and is answered with
`ok: true` and the item count; a non-array payload replaces the set with
the empty list; other lots are untouched and no error is ever
returned. -/
theorem postStalls_no_validation
    (body : Option (List Stall)) (store : String → List Stall)
    (lotId : String) :
    (postStalls body store lotId).2.ok = true ∧
    (postStalls body store lotId).2.count = (coerceStallBody body).length ∧
    (postStalls body store lotId).1 lotId = coerceStallBody body ∧
    ∀ k, k ≠ lotId → (postStalls body store lotId).1 k = store k := by
  refine ⟨rfl, rfl, by simp [postStalls], ?_⟩
  intro k hk
  simp [postStalls, hk]

/-- C6 witness: the amended statement at the degenerate payload. -/
theorem postStalls_no_validation_witness :
    (postStalls (some [badStall]) (fun _ => []) "lot-1").2.ok = true ∧
    (postStalls (some [badStall]) (fun _ => []) "lot-1").1 "lot-2" = [] := by
  refine ⟨(postStalls_no_validation (some [badStall]) (fun _ => []) "lot-1").1,
    (postStalls_no_validation (some [badStall]) (fun _ => []) "lot-1").2.2.2
      "lot-2" (by decide)⟩

/-- C10.  The external-source cache is served only when its lot list is
non-empty and younger than 60 seconds (and then the fetch is not even
attempted); with an empty cached list every call refetches regardless of
age, so a successful zero-lot fetch is never served from cache; and a
failed fetch returns the previous cache object unchanged instead of
raising. -/
theorem fetchSupabaseData_cache_policy (now : Int) (cache : SupaCache) :
    (cache.list ≠ [] → now - cache.fetchedAt < SUPABASE_CACHE_MS →
      ∀ fetchResult, fetchSupabaseData now fetchResult cache = (cache, cache)) ∧
    (cache.list = [] → ∀ rows, fetchSupabaseData now (some rows) cache =
      ({ fetchedAt := now, list := rows }, { fetchedAt := now, list := rows })) ∧
    (¬ (cache.list ≠ [] ∧ now - cache.fetchedAt < SUPABASE_CACHE_MS) →
      ∀ rows, fetchSupabaseData now (some rows) cache =
        ({ fetchedAt := now, list := rows }, { fetchedAt := now, list := rows })) ∧
    fetchSupabaseData now none cache = (cache, cache) := by
  refine ⟨?_, ?_, ?_, ?_⟩
  · intro h1 h2 fetchResult
    simp [fetchSupabaseData, h1, h2]
  · intro h1 rows
    simp [fetchSupabaseData, h1]
  · intro h1 rows
    simp [fetchSupabaseData, h1]
  · unfold fetchSupabaseData
    split
    · rfl
    · rfl

/-- C10 witness: a stale empty cache refetches even though it is young,
and a failed fetch leaves it unchanged. -/
theorem fetchSupabaseData_cache_policy_witness :
    fetchSupabaseData 1000 (some [entry5010]) { fetchedAt := 990, list := [] } =
      ({ fetchedAt := 1000, list := [entry5010] },
       { fetchedAt := 1000, list := [entry5010] }) ∧
    fetchSupabaseData 1000 none { fetchedAt := 990, list := [] } =
      ({ fetchedAt := 990, list := [] }, { fetchedAt := 990, list := [] }) := by
  refine ⟨(fetchSupabaseData_cache_policy 1000
      { fetchedAt := 990, list := [] }).2.1 (by decide) [entry5010],
    (fetchSupabaseData_cache_policy 1000 { fetchedAt := 990, list := [] }).2.2.2⟩

theorem length_filter_add_length_filter_le {α : Type} (p q : α → Bool)
    (h : ∀ a, p a = true → q a = false) (l : List α) :
    (l.filter p).length + (l.filter q).length ≤ l.length := by
  induction l with
  | nil => simp
  | cons a t ih =>
      cases hp : p a with
      | true =>
          have hq := h a hp
          simp only [List.filter_cons, hp, hq, if_true, Bool.false_eq_true,
            if_false, List.length_cons]
          omega
      | false =>
          cases hq : q a with
          | true =>
              simp only [List.filter_cons, hp, hq, Bool.false_eq_true, if_false,
                if_true, List.length_cons]
              omega
          | false =>
              simp only [List.filter_cons, hp, hq, Bool.false_eq_true, if_false,
                List.length_cons]
              omega

theorem summarizeStalls_inv (stalls : List Stall) : (summarizeStalls stalls).inv := by
  have h := length_filter_add_length_filter_le
    (fun s => decide (s.status = "occupied"))
    (fun s => decide (s.status ≠ "occupied" ∧ s.status ≠ "open"))
    (fun a ha => by
      have hs : a.status = "occupied" := of_decide_eq_true ha
      simp [hs]) stalls
  have ht : (summarizeStalls stalls).total = (stalls.length : Int) := rfl
  have ho : (summarizeStalls stalls).occupied =
      ((stalls.filter (fun s => decide (s.status = "occupied"))).length : Int) := rfl
  have hu : (summarizeStalls stalls).unknown =
      ((stalls.filter (fun s =>
        decide (s.status ≠ "occupied" ∧ s.status ≠ "open"))).length : Int) := rfl
  have hop : (summarizeStalls stalls).«open» = (summarizeStalls stalls).total -
      (summarizeStalls stalls).occupied - (summarizeStalls stalls).unknown := rfl
  unfold Counts.inv
  rw [hop, ht, ho, hu]
  omega

theorem seedFallbackCounts_inv (localCounts : Counts) (spaceCount : Option Int)
    (occupiedCount : Int) (hloc : localCounts.inv) (h0 : 0 ≤ occupiedCount)
    (h1 : ∀ sc, spaceCount = some sc → occupiedCount ≤ sc) :
    (seedFallbackCounts localCounts spaceCount occupiedCount).inv := by
  cases spaceCount with
  | none => exact hloc
  | some sc =>
      unfold seedFallbackCounts
      dsimp only
      by_cases hb : localCounts.total = 0 ∧ sc ≠ 0
      · have hle := h1 sc rfl
        rw [if_pos hb]
        unfold Counts.inv
        dsimp only
        omega
      · rwa [if_neg hb]

theorem computeSeedCounts_inv (env : Env) (l : LotRec)
    (h0 : 0 ≤ l.metadata.occupiedCount.getD 0)
    (h1 : ∀ sc, l.metadata.spaceCount = some sc →
      l.metadata.occupiedCount.getD 0 ≤ sc) :
    ((computeSeedCounts env l).1).inv :=
  seedFallbackCounts_inv _ _ _ (summarizeStalls_inv (env.stallsByLot l.id)) h0 h1

/-- C2 counterexample: seed metadata with `occupiedCount = 10` larger
than `spaceCount = 5` (storable verbatim through `POST /api/lots`)
produces the counts record `(5, 10, 0, 0)`, whose fields sum to 10, not
to the total 5 — refuting the invariant as stated. -/
theorem counts_invariant_counterexample :
    (computeSeedCounts env0 lotBadSeed).1 =
      { total := 5, occupied := 10, «open» := 0, unknown := 0 } ∧
    (computeSeedCounts env0 lotBadSeed).1.total ≠
      (computeSeedCounts env0 lotBadSeed).1.occupied +
        (computeSeedCounts env0 lotBadSeed).1.«open» +
        (computeSeedCounts env0 lotBadSeed).1.unknown := by
  refine ⟨by decide, by decide⟩

/-- C2 amended.  The invariant `total = occupied + open + unknown` with
all fields non-negative holds unconditionally for the manual-stall
summarization; for the seed-metadata fallback it additionally needs the
stored metadata to satisfy `0 ≤ occupiedCount ≤ spaceCount` (nothing
validates this, see the counterexample); on the external-source path the
sum always equals the total, and non-negativity additionally needs the
reported capacity and occupancy to be non-negative. -/
theorem counts_invariant_amended (stalls : List Stall) (env : Env)
    (l : LotRec) (st : SupaStats) :
    (summarizeStalls stalls).inv ∧
    (0 ≤ l.metadata.occupiedCount.getD 0 →
      (∀ sc, l.metadata.spaceCount = some sc →
        l.metadata.occupiedCount.getD 0 ≤ sc) →
      ((computeSeedCounts env l).1).inv) ∧
    ((supaCounts st).total =
      (supaCounts st).occupied + (supaCounts st).«open» + (supaCounts st).unknown) ∧
    (0 ≤ st.total → 0 ≤ st.occupied → (supaCounts st).inv) := by
  refine ⟨summarizeStalls_inv stalls,
    fun h0 h1 => computeSeedCounts_inv env l h0 h1, ?_, ?_⟩
  · unfold supaCounts
    simp only []
    omega
  · intro ht hocc
    unfold supaCounts Counts.inv
    simp only []
    omega

/-- C2 witness: the amended statement at concrete inputs, with the seed
hypotheses discharged for a lot whose metadata is in range. -/
theorem counts_invariant_amended_witness :
    (summarizeStalls [badStall]).inv ∧
    ((computeSeedCounts env0 lotPlain).1).inv ∧
    (supaCounts ⟨50, 10⟩).inv := by
  refine ⟨(counts_invariant_amended [badStall] env0 lotPlain ⟨50, 10⟩).1,
    (counts_invariant_amended [badStall] env0 lotPlain ⟨50, 10⟩).2.1
      (by decide) (fun sc h => by simp [lotPlain] at h ⊢; omega),
    (counts_invariant_amended [badStall] env0 lotPlain ⟨50, 10⟩).2.2.2
      (by decide) (by decide)⟩

theorem opt_map_some {α β : Type} (f : α → β) (a : α) :
    Option.map f (some a) = some (f a) := rfl

theorem opt_some_orElse {α : Type} (a : α) (f : Unit → Option α) :
    (some a).orElse f = some a := rfl

theorem jsRound_intCast (k : Int) : jsRound (k : ℚ) = k := by
  unfold jsRound
  rw [add_comm, Int.floor_add_int]
  norm_num

theorem quantile_const (k : ℚ) (arr : List ℚ) (q : ℚ) (h0 : 0 ≤ q)
    (h1 : q ≤ 1) (hne : arr ≠ []) (hk : ∀ x ∈ arr, x = k) :
    quantile arr q = k := by
  unfold quantile
  dsimp only
  have hlen : (arr.mergeSort (fun x y => decide (x ≤ y))).length = arr.length :=
    List.length_mergeSort arr
  have hmem : ∀ x ∈ arr.mergeSort (fun x y => decide (x ≤ y)), x = k :=
    fun x hx => hk x (List.mem_mergeSort.mp hx)
  have hpos : 0 < arr.length := List.length_pos.mpr hne
  set a := arr.mergeSort (fun x y => decide (x ≤ y)) with ha
  have h1n : 1 ≤ a.length := by
    rw [hlen]
    exact hpos
  have hcast : (1 : ℚ) ≤ (a.length : ℚ) := by exact_mod_cast h1n
  have hq0 : (0 : ℚ) ≤ ((a.length : ℚ) - 1) * q := by
    apply mul_nonneg _ h0
    linarith
  have hq1 : ((a.length : ℚ) - 1) * q ≤ (a.length : ℚ) - 1 := by
    have hnn : (0 : ℚ) ≤ (a.length : ℚ) - 1 := by linarith
    exact mul_le_of_le_one_right hnn h1
  have hb0 : 0 ≤ ⌊((a.length : ℚ) - 1) * q⌋ := Int.floor_nonneg.mpr hq0
  have hb1 : ⌊((a.length : ℚ) - 1) * q⌋ ≤ (a.length : Int) - 1 := by
    calc ⌊((a.length : ℚ) - 1) * q⌋ ≤ ⌊(a.length : ℚ) - 1⌋ :=
          Int.floor_le_floor hq1
      _ = (a.length : Int) - 1 := by
          rw [show ((a.length : ℚ) - 1) = (((a.length : Int) - 1 : Int) : ℚ) by
            push_cast; ring]
          exact Int.floor_intCast _
  have hidx : (⌊((a.length : ℚ) - 1) * q⌋).toNat < a.length := by
    omega
  have hgetD : a.getD (⌊((a.length : ℚ) - 1) * q⌋).toNat 0 = k := by
    rw [List.getD_eq_getElem a 0 hidx]
    exact hmem _ (List.getElem_mem hidx)
  cases hnext : a.get? ((⌊((a.length : ℚ) - 1) * q⌋).toNat + 1) with
  | none =>
      exact hgetD
  | some v =>
      have hv : v = k := hmem v (List.get?_mem hnext)
      show a.getD (⌊((a.length : ℚ) - 1) * q⌋).toNat 0 +
        (((a.length : ℚ) - 1) * q - (⌊((a.length : ℚ) - 1) * q⌋ : ℚ)) *
          (v - a.getD (⌊((a.length : ℚ) - 1) * q⌋).toNat 0) = k
      rw [hgetD, hv]
      ring

/-- C7.  If every observation filtered to the requested `(weekday, slot)`
has the same open count `k`, the forecast returns `expected = k` and
`p25 = p75 = k`; on an empty filtered set all three outputs are null;
and whenever the filtered set is non-empty, `expected` is
`Math.round(0.6 * last + 0.4 * median)` of the most recent filtered
observation and the interpolated median (each operand would fall back to
the other if it were unavailable, which for a non-empty filter never
happens). -/
theorem forecast_constant_empty_blend (history : List Snapshot)
    (weekday : Int) (slot : String) (k : Int) :
    (forecastFilter history weekday slot ≠ [] →
      (∀ s ∈ forecastFilter history weekday slot, s.«open» = k) →
      forecast history weekday slot = (some k, some (k : ℚ), some (k : ℚ))) ∧
    (forecastFilter history weekday slot = [] →
      forecast history weekday slot = (none, none, none)) ∧
    (∀ lastObs, (forecastFilter history weekday slot).getLast? = some lastObs →
      (forecast history weekday slot).1 = some (jsRound
        ((3 / 5) * (lastObs.«open» : ℚ) + (2 / 5) * quantile
          ((forecastFilter history weekday slot).map (fun s => (s.«open» : ℚ)))
          (1 / 2)))) := by
  refine ⟨?_, ?_, ?_⟩
  · intro hne hk
    set hist := forecastFilter history weekday slot with hh
    have hvals : ∀ x ∈ hist.map (fun s => ((s.«open» : ℚ))), x = (k : ℚ) := by
      intro x hx
      obtain ⟨s, hs, rfl⟩ := List.mem_map.mp hx
      exact_mod_cast hk s hs
    have hvne : (hist.map (fun s => ((s.«open» : ℚ)))).length ≠ 0 := by
      simpa using fun h => hne (List.eq_nil_of_length_eq_zero h)
    obtain ⟨lastObs, hlast⟩ : ∃ x, hist.getLast? = some x := by
      cases hl : hist.getLast? with
      | none => exact absurd (List.getLast?_eq_none_iff.mp hl) hne
      | some x => exact ⟨x, rfl⟩
    have hlastk : lastObs.«open» = k := hk _ (List.mem_of_mem_getLast? hlast)
    have hmed : quantile (hist.map (fun s => ((s.«open» : ℚ)))) (1 / 2) = (k : ℚ) :=
      quantile_const _ _ _ (by norm_num) (by norm_num)
        (fun h => hvne (by simp [h])) hvals
    have hp25 : quantile (hist.map (fun s => ((s.«open» : ℚ)))) (1 / 4) = (k : ℚ) :=
      quantile_const _ _ _ (by norm_num) (by norm_num)
        (fun h => hvne (by simp [h])) hvals
    have hp75 : quantile (hist.map (fun s => ((s.«open» : ℚ)))) (3 / 4) = (k : ℚ) :=
      quantile_const _ _ _ (by norm_num) (by norm_num)
        (fun h => hvne (by simp [h])) hvals
    unfold forecast
    rw [← hh]
    simp only [hvne, ne_eq, not_false_iff, if_true, hlast, opt_map_some,
      hmed, hp25, hp75, opt_some_orElse, Option.getD_some, hlastk]
    rw [show (3 / 5 : ℚ) * (k : ℚ) + (2 / 5) * (k : ℚ) = (k : ℚ) by ring,
      jsRound_intCast]
  · intro hemp
    unfold forecast
    rw [hemp]
    simp
  · intro lastObs hlast
    set hist := forecastFilter history weekday slot with hh
    have hne : hist ≠ [] := by
      intro h
      rw [h] at hlast
      simp at hlast
    have hvne : (hist.map (fun s => ((s.«open» : ℚ)))).length ≠ 0 := by
      simpa using fun h => hne (List.eq_nil_of_length_eq_zero h)
    unfold forecast
    rw [← hh]
    simp only [hvne, ne_eq, not_false_iff, if_true, hlast, opt_map_some,
      opt_some_orElse, Option.getD_some]

/-- C7 witness: a three-observation history, constant at the requested
slot. -/
theorem forecast_constant_empty_blend_witness :
    forecast [⟨1, "10:00", 7⟩, ⟨1, "10:00", 7⟩, ⟨2, "11:00", 9⟩] 1 "10:00" =
      (some 7, some 7, some 7) ∧
    forecast [⟨1, "10:00", 7⟩] 3 "10:00" = (none, none, none) := by
  refine ⟨(forecast_constant_empty_blend
      [⟨1, "10:00", 7⟩, ⟨1, "10:00", 7⟩, ⟨2, "11:00", 9⟩] 1 "10:00" 7).1
      (by decide) (by decide),
    (forecast_constant_empty_blend [⟨1, "10:00", 7⟩] 3 "10:00" 7).2.1
      (by decide)⟩

theorem findSome?_append_of_none {α β : Type} (f : α → Option β)
    (pre rest : List α) (h : ∀ q ∈ pre, f q = none) :
    List.findSome? f (pre ++ rest) = List.findSome? f rest := by
  induction pre with
  | nil => rfl
  | cons a t ih =>
      have ha : f a = none := h a (List.mem_cons_self a t)
      simp only [List.cons_append, List.findSome?_cons, ha]
      exact ih (fun q hq => h q (List.mem_cons_of_mem a hq))

/-- C8 counterexample: a Polygon whose first ring has a single vertex
(fewer than 3) does NOT get a null centroid — the code averages whatever
vertices exist, so ring `[(1, 2)]` yields the centroid `(2, 1)` in
lat/lng order, refuting "treats a ring with fewer than 3 vertices as
having no centroid". -/
theorem centroid_small_ring_counterexample :
    centroidForGeometry (some (Geometry.polygon [[(1, 2)]])) = some (2, 1) ∧
    centroidForGeometry (some (Geometry.polygon [[(1, 2)]])) ≠ none := by
  have h : centroidForGeometry (some (Geometry.polygon [[(1, 2)]])) =
      some ((2 : ℚ) / 1, (1 : ℚ) / 1) := by
    norm_num [centroidForGeometry, averageRing]
  rw [h]
  refine ⟨by norm_num, by simp⟩

/-- C8 amended.  `centroidForGeometry` returns the point itself (in
lat/lng display order) for a Point; for a Polygon the unweighted
arithmetic mean of the first ring whenever that ring is non-empty —
including rings of one or two vertices — and null exactly when the ring
list or the first ring is empty; for a MultiPolygon the centroid of the
first member whose first ring is non-empty (members without that are
skipped, and all-degenerate members give null); null for unrecognized
kinds and for absent geometry; the server implementation never throws
(it is a total function here). -/
theorem centroid_amended (c : Pt) (r : List Pt) (rs : List (List Pt))
    (polys pre post : List (List (List Pt))) :
    centroidForGeometry (some (Geometry.point c)) = some (c.2, c.1) ∧
    (r ≠ [] → centroidForGeometry (some (Geometry.polygon (r :: rs))) =
      some ((r.map (fun v => v.2)).sum / (r.length : ℚ),
            (r.map (fun v => v.1)).sum / (r.length : ℚ))) ∧
    centroidForGeometry (some (Geometry.polygon [])) = none ∧
    centroidForGeometry (some (Geometry.polygon ([] :: rs))) = none ∧
    ((∀ q ∈ pre, averageRing q.head? = none) →
      centroidForGeometry (some (Geometry.multiPolygon (pre ++ post))) =
        centroidForGeometry (some (Geometry.multiPolygon post))) ∧
    ((∀ q ∈ polys, averageRing q.head? = none) →
      centroidForGeometry (some (Geometry.multiPolygon polys)) = none) ∧
    (r ≠ [] →
      centroidForGeometry (some (Geometry.multiPolygon ((r :: rs) :: polys))) =
      some ((r.map (fun v => v.2)).sum / (r.length : ℚ),
            (r.map (fun v => v.1)).sum / (r.length : ℚ))) ∧
    centroidForGeometry (some Geometry.other) = none ∧
    centroidForGeometry none = none := by
  refine ⟨rfl, ?_, rfl, rfl, ?_, ?_, ?_, rfl, rfl⟩
  · intro hr
    cases r with
    | nil => exact absurd rfl hr
    | cons x t => rfl
  · intro h
    exact findSome?_append_of_none _ pre post h
  · intro h
    have := findSome?_append_of_none (fun poly => averageRing poly.head?)
      polys [] h
    rwa [List.append_nil] at this
  · intro hr
    cases r with
    | nil => exact absurd rfl hr
    | cons x t => rfl

/-- C8 witness: the amended statement at a two-vertex ring and a
MultiPolygon whose first two members are degenerate. -/
theorem centroid_amended_witness :
    centroidForGeometry (some (Geometry.polygon [[(1, 2), (3, 4)]])) =
      some (3, 2) ∧
    centroidForGeometry
      (some (Geometry.multiPolygon ([[], [[]]] ++ [[[(1, 2), (3, 4)]]]))) =
      centroidForGeometry (some (Geometry.multiPolygon [[[(1, 2), (3, 4)]]])) := by
  constructor
  · have h := (centroid_amended (0, 0) [(1, 2), (3, 4)] [] [] [] []).2.1
      (by decide)
    rw [h]
    norm_num
  · exact (centroid_amended (0, 0) [(1, 2), (3, 4)] [] []
      [[], [[]]] [[[(1, 2), (3, 4)]]]).2.2.2.2.1 (by decide)

theorem assignLot_isSome (lots : List LotFeat)
    (hwf : ∀ lot ∈ lots, wfLot lot = true) (c : Pt) :
    (assignLot lots c).isSome := by
  induction lots with
  | nil => simp [assignLot]
  | cons lot rest ih =>
      have hl := hwf lot (List.mem_cons_self lot rest)
      have hrest : ∀ l ∈ rest, wfLot l = true :=
        fun l hl' => hwf l (List.mem_cons_of_mem lot hl')
      cases hid : lot.osmId with
      | none => simpa [assignLot, hid] using ih hrest
      | some id =>
          cases hg : lot.geom with
          | none => simpa [assignLot, hid, hg] using ih hrest
          | some g =>
              have hwg : wfGeom g = true := by
                unfold wfLot at hl
                rwa [hg] at hl
              have hsome := containsCore_isSome g c hwg
              cases hcb : geometryContainsPointCore g c with
              | none =>
                  rw [hcb] at hsome
                  simp at hsome
              | some b =>
                  cases b with
                  | true => simp [assignLot, hid, hg, hcb]
                  | false => simpa [assignLot, hid, hg, hcb] using ih hrest

theorem occupancyByLot_foldl (occupied : String → Bool) (lots : List LotFeat)
    (hwf : ∀ lot ∈ lots, wfLot lot = true) (spaces : List SpaceC) :
    ∀ m : String → Nat × Nat,
    spaces.foldlM (occStep occupied lots) m = some (fun id =>
      ((m id).1 + spaces.countP
        (fun sp => decide (assignLot lots sp.center = some (some id))),
       (m id).2 + spaces.countP
        (fun sp => decide (assignLot lots sp.center = some (some id)) &&
          matchesOcc occupied sp))) := by
  induction spaces with
  | nil =>
      intro m
      simp only [List.foldlM_nil, List.countP_nil, Nat.add_zero]
      rfl
  | cons sp rest ih =>
      intro m
      rw [List.foldlM_cons]
      obtain ⟨a, ha⟩ := Option.isSome_iff_exists.mp
        (assignLot_isSome lots hwf sp.center)
      cases a with
      | none =>
          have hstep : occStep occupied lots m sp = some m := by
            simp [occStep, ha]
          rw [hstep]
          show rest.foldlM (occStep occupied lots) m = _
          rw [ih m]
          congr 1
          funext id
          have hfalse : decide (assignLot lots sp.center = some (some id)) =
              false := by simp [ha]
          simp [List.countP_cons, hfalse]
      | some osmId =>
          have hstep : occStep occupied lots m sp = some (fun k =>
              if k = osmId then
                ((m osmId).1 + 1,
                 if matchesOcc occupied sp then (m osmId).2 + 1 else (m osmId).2)
              else m k) := by
            simp [occStep, ha]
          rw [hstep]
          show rest.foldlM (occStep occupied lots) _ = _
          rw [ih _]
          congr 1
          funext id
          by_cases hid : id = osmId
          · subst hid
            have htrue : decide (assignLot lots sp.center = some (some id)) =
                true := by simp [ha]
            cases hocc : matchesOcc occupied sp <;>
              simp [List.countP_cons, htrue, hocc] <;> omega
          · have hfalse : decide (assignLot lots sp.center = some (some id)) =
                false := by
              simp only [decide_eq_false_iff_not, ha]
              intro hcontra
              exact hid (by
                have := Option.some.inj (Option.some.inj hcontra)
                exact this.symm)
            simp [List.countP_cons, hfalse, hid]

theorem countContained_eq (g : Geometry) (hwg : wfGeom g = true)
    (spaces : List SpaceC) :
    countContained spaces g = some (spaces.countP
      (fun sp => decide (geometryContainsPointCore g sp.center = some true))) := by
  induction spaces with
  | nil => simp [countContained]
  | cons sp rest ih =>
      have hsome := containsCore_isSome g sp.center hwg
      cases hcb : geometryContainsPointCore g sp.center with
      | none =>
          rw [hcb] at hsome
          simp at hsome
      | some b =>
          cases b with
          | true => simp [countContained, hcb, ih, List.countP_cons]
          | false => simp [countContained, hcb, ih, List.countP_cons]

/-- C3 counterexample: the seed generator counts every containing lot.
With two lot features sharing the same square geometry and one space in
the square, both per-lot space counts are 1 — the space is counted by
two lots, refuting "counted in the aggregate of exactly the first
containing lot in iteration order (at most one lot ever counts a given
space)". -/
theorem seed_double_count_counterexample :
    seedLotSpaceCounts [spMid] [sqGeom, sqGeom] = some [1, 1] ∧
    ¬ (∀ counts, seedLotSpaceCounts [spMid] [sqGeom, sqGeom] = some counts →
        counts.countP (fun n => decide (0 < n)) ≤ 1) := by
  have hc : geometryContainsPointCore sqGeom (2, 2) = some true := by
    norm_num [geometryContainsPointCore, sqGeom, pointInRing, edgeCrossesRay,
      List.rotate]
  have h : seedLotSpaceCounts [spMid] [sqGeom, sqGeom] = some [1, 1] := by
    simp [seedLotSpaceCounts, countContained, spMid, hc]
  refine ⟨h, ?_⟩
  intro hall
  have h2 := hall [1, 1] h
  simp [List.countP_cons] at h2

/-- C3 amended.  The map-view aggregation (`occupancyByLot`) assigns
each space to exactly the first lot, in iteration order, whose geometry
contains its centroid: the per-lot total is the number of spaces whose
first containing lot is that lot (and the occupied tally counts those
also in the occupied set), so a space inside several lots is counted
once and a space inside none contributes to no lot and causes no error.
The seed generator (`generateLotsFromOSM`), by contrast, counts each
space in EVERY lot whose geometry contains it — each per-lot figure is
an independent filter of the full space list, so overlapping lots
double-count (see the counterexample). -/
theorem occupancyByLot_first_match_amended (occupied : String → Bool)
    (spaces : List SpaceC) (lots : List LotFeat)
    (hwf : ∀ lot ∈ lots, wfLot lot = true) :
    (occupancyByLot occupied spaces lots = some (fun id =>
      (spaces.countP
        (fun sp => decide (assignLot lots sp.center = some (some id))),
       spaces.countP
        (fun sp => decide (assignLot lots sp.center = some (some id)) &&
          matchesOcc occupied sp)))) ∧
    (∀ geoms spaces2, (∀ g ∈ geoms, wfGeom g = true) →
      seedLotSpaceCounts spaces2 geoms = some (geoms.map (fun g =>
        spaces2.countP (fun sp =>
          decide (geometryContainsPointCore g sp.center = some true))))) := by
  constructor
  · unfold occupancyByLot
    rw [occupancyByLot_foldl occupied lots hwf spaces (fun _ => (0, 0))]
    congr 1
    funext id
    simp
  · intro geoms
    induction geoms with
    | nil =>
        intro spaces2 _
        simp [seedLotSpaceCounts]
    | cons g gs ih =>
        intro spaces2 hg
        have hwg : wfGeom g = true := hg g (List.mem_cons_self g gs)
        have hgs : ∀ g' ∈ gs, wfGeom g' = true :=
          fun g' hg' => hg g' (List.mem_cons_of_mem g hg')
        simp only [seedLotSpaceCounts, countContained_eq g hwg spaces2,
          ih spaces2 hgs, opt_map_some, List.map_cons]

/-- C3 witness: the amended statement at two overlapping square lots and
two spaces, one inside and one outside. -/
theorem occupancyByLot_first_match_amended_witness :
    occupancyByLot (fun _ => false) [spMid, spOut] [lotFeatA, lotFeatB] =
      some (fun id =>
        ([spMid, spOut].countP (fun sp =>
          decide (assignLot [lotFeatA, lotFeatB] sp.center = some (some id))),
         [spMid, spOut].countP (fun sp =>
          decide (assignLot [lotFeatA, lotFeatB] sp.center = some (some id)) &&
            matchesOcc (fun _ => false) sp))) := by
  exact (occupancyByLot_first_match_amended (fun _ => false) [spMid, spOut]
    [lotFeatA, lotFeatB] (by decide)).1

theorem haversine_expr_bounds (x : ℝ) :
    0 ≤ 2 * 6371000 * Real.arcsin (min 1 (Real.sqrt x)) ∧
    2 * 6371000 * Real.arcsin (min 1 (Real.sqrt x)) < 10 ^ 12 := by
  have hmin : (0 : ℝ) ≤ min 1 (Real.sqrt x) :=
    le_min (by norm_num) (Real.sqrt_nonneg x)
  constructor
  · apply mul_nonneg (by norm_num)
    exact Real.arcsin_nonneg.mpr hmin
  · have harc : Real.arcsin (min 1 (Real.sqrt x)) ≤ Real.pi / 2 :=
      Real.arcsin_le_pi_div_two _
    have hpi : Real.pi < 3.15 := Real.pi_lt_d2
    calc 2 * 6371000 * Real.arcsin (min 1 (Real.sqrt x))
        ≤ 2 * 6371000 * (Real.pi / 2) := by
          apply mul_le_mul_of_nonneg_left harc
          norm_num
      _ = 6371000 * Real.pi := by ring
      _ < 6371000 * 3.15 := by
          apply mul_lt_mul_of_pos_left hpi
          norm_num
      _ < 10 ^ 12 := by norm_num

theorem distanceMetersR_bounds (a b : Coord) :
    0 ≤ distanceMetersR a b ∧ distanceMetersR a b < 10 ^ 12 :=
  haversine_expr_bounds _

theorem mem_listNear (d : Coord → Coord → ℚ) (origin : Coord)
    (radius : Option ℚ) (lots : List LotS) (x : LotS × Option ℚ)
    (hx : x ∈ listNear d origin radius lots) :
    x ∈ lots.map (fun l => (l, l.centroid.map (fun c => d origin c))) := by
  unfold listNear at hx
  cases radius with
  | none => exact List.mem_mergeSort.mp hx
  | some r => exact List.mem_mergeSort.mp (List.mem_filter.mp hx).1

theorem key_lt_of_isSome (d : Coord → Coord → ℚ)
    (hd : ∀ a b, 0 ≤ d a b ∧ d a b < 10 ^ 12) (origin : Coord)
    (radius : Option ℚ) (lots : List LotS) (x : LotS × Option ℚ)
    (hx : x ∈ listNear d origin radius lots) (hs : x.2.isSome = true) :
    sortKeyQ x.2 < 10 ^ 12 := by
  obtain ⟨l, _, rfl⟩ := List.mem_map.mp (mem_listNear d origin radius lots x hx)
  cases hc : l.centroid with
  | none =>
      rw [hc] at hs
      simp at hs
  | some c =>
      simp only [opt_map_some, sortKeyQ, Option.getD_some]
      exact (hd origin c).2

theorem listNear_pairwise_key (d : Coord → Coord → ℚ) (origin : Coord)
    (radius : Option ℚ) (lots : List LotS) :
    List.Pairwise (fun a b => sortKeyQ a.2 ≤ sortKeyQ b.2)
      (listNear d origin radius lots) := by
  have htrans : ∀ a b c : LotS × Option ℚ,
      (fun a b => decide (sortKeyQ a.2 ≤ sortKeyQ b.2)) a b = true →
      (fun a b => decide (sortKeyQ a.2 ≤ sortKeyQ b.2)) b c = true →
      (fun a b => decide (sortKeyQ a.2 ≤ sortKeyQ b.2)) a c = true := by
    intro a b c hab hbc
    simp only [decide_eq_true_eq] at hab hbc ⊢
    exact le_trans hab hbc
  have htotal : ∀ a b : LotS × Option ℚ,
      ((fun a b => decide (sortKeyQ a.2 ≤ sortKeyQ b.2)) a b ||
       (fun a b => decide (sortKeyQ a.2 ≤ sortKeyQ b.2)) b a) = true := by
    intro a b
    simp only [Bool.or_eq_true, decide_eq_true_eq]
    exact le_total _ _
  have hsorted := List.sorted_mergeSort htrans htotal
    (lots.map (fun l => (l, l.centroid.map (fun c => d origin c))))
  have hsorted' : List.Pairwise (fun a b => sortKeyQ a.2 ≤ sortKeyQ b.2)
      ((lots.map (fun l => (l, l.centroid.map (fun c => d origin c)))).mergeSort
        (fun a b => decide (sortKeyQ a.2 ≤ sortKeyQ b.2))) :=
    hsorted.imp (fun h => of_decide_eq_true h)
  unfold listNear
  cases radius with
  | none => exact hsorted'
  | some r => exact List.Pairwise.sublist (List.filter_sublist _) hsorted'

/-- C9.  The `near` handling of `GET /api/lots` outputs lots in ascending
order of the distance key (the haversine distance when the lot has a
centroid, the `1e12` sentinel when not); since every distance the code
can compute is below the sentinel, lots without a centroid are sorted
last exactly as if they were infinitely far; the optional radius filter
is applied to the already sorted list and keeps precisely the entries
whose key is at most the threshold.  The listing is proved for every
distance function bounded like the haversine, and the concrete
`distanceMetersR` (haversine, Earth radius 6371000 m, modelled over ℝ)
satisfies that bound. -/
theorem listNear_sorted_and_filtered (d : Coord → Coord → ℚ)
    (hd : ∀ a b, 0 ≤ d a b ∧ d a b < 10 ^ 12)
    (origin : Coord) (radius : Option ℚ) (lots : List LotS) :
    List.Pairwise (fun a b => sortKeyQ a.2 ≤ sortKeyQ b.2)
      (listNear d origin radius lots) ∧
    List.Pairwise (fun a b => b.2.isSome = true → a.2.isSome = true)
      (listNear d origin radius lots) ∧
    (∀ r, radius = some r →
      ∀ x ∈ listNear d origin radius lots, sortKeyQ x.2 ≤ r) ∧
    (∀ a b : Coord, 0 ≤ distanceMetersR a b ∧ distanceMetersR a b < 10 ^ 12) := by
  have hpair := listNear_pairwise_key d origin radius lots
  refine ⟨hpair, ?_, ?_, distanceMetersR_bounds⟩
  · refine hpair.imp_of_mem ?_
    intro a b ha hb hab hbs
    have hblt : sortKeyQ b.2 < 10 ^ 12 :=
      key_lt_of_isSome d hd origin radius lots b hb hbs
    have halt : sortKeyQ a.2 < 10 ^ 12 := lt_of_le_of_lt hab hblt
    cases hc : a.2 with
    | none =>
        rw [hc] at halt
        norm_num [sortKeyQ] at halt
    | some v => simp
  · intro r hr x hx
    rw [hr] at hx
    unfold listNear at hx
    have := (List.mem_filter.mp hx).2
    exact of_decide_eq_true this

/-- C9 witness: a constant zero distance function over one lot with a
centroid, one without, and a radius. -/
theorem listNear_sorted_and_filtered_witness :
    List.Pairwise (fun a b => sortKeyQ a.2 ≤ sortKeyQ b.2)
      (listNear (fun _ _ => 0) ⟨0, 0⟩ (some 100)
        [⟨"a", some ⟨1, 1⟩⟩, ⟨"b", none⟩]) ∧
    List.Pairwise (fun a b => b.2.isSome = true → a.2.isSome = true)
      (listNear (fun _ _ => 0) ⟨0, 0⟩ (some 100)
        [⟨"a", some ⟨1, 1⟩⟩, ⟨"b", none⟩]) ∧
    (∀ r, (some (100 : ℚ)) = some r →
      ∀ x ∈ listNear (fun _ _ => 0) ⟨0, 0⟩ (some 100)
        [⟨"a", some ⟨1, 1⟩⟩, ⟨"b", none⟩], sortKeyQ x.2 ≤ r) ∧
    (∀ a b : Coord, 0 ≤ distanceMetersR a b ∧ distanceMetersR a b < 10 ^ 12) :=
  listNear_sorted_and_filtered (fun _ _ => 0)
    (fun _ _ => by norm_num) ⟨0, 0⟩ (some 100)
    [⟨"a", some ⟨1, 1⟩⟩, ⟨"b", none⟩]

end Parking
